import Mathlib

/-!
Verification development for the `ai-text-formatter` application
(`formatter/views.py`, `formatter/utils.py`, `formatter/models.py`).

Python strings are embedded as `List Char`; HTML texts handled by the
DOCX walk are embedded as `String` (only concrete values are computed
there).  Third-party collaborators (the markdown engine, the PDF
rendering engine, timestamp formatting) are kept abstract as function
parameters; library behaviour the endpoints rely on (Django's
`Paginator.get_page`, python-docx paragraph accounting) is embedded
explicitly and documented at its definition.
-/

namespace AiTextFormatter

/-! ## Python string primitives -/

/-- Characters treated as whitespace by Python's `str.strip()`. -/
def isPySpace (c : Char) : Bool :=
  c = ' ' || c = '\t' || c = '\n' || c = '\r' || c = '\x0b' || c = '\x0c'

/-- Python `str.strip()`: remove leading and trailing whitespace. -/
def pyStrip (s : List Char) : List Char :=
  ((s.dropWhile isPySpace).reverse.dropWhile isPySpace).reverse

/-! ## Filename sanitisation (`views.sanitize_filename`) -/

/-- The characters matched by the pattern in
`re.sub(r'[<>:"/\\|?*]', '_', name)`. -/
def illegal_chars : List Char := ['<', '>', ':', '"', '/', '\\', '|', '?', '*']

/-- Substitution applied to a single character by
`re.sub(r'[<>:"/\\|?*]', '_', name)`: an illegal character becomes an
underscore, every other character is kept. -/
def replace_illegal (c : Char) : Char :=
  if c ∈ illegal_chars then '_' else c

/-- `views.sanitize_filename`: substitute `'_'` for the illegal
characters, truncate to 200 characters (`name[:200]`), and fall back to
`"document"` when the result is the empty (falsy) string
(`return name or "document"`). -/
def sanitize_filename (name : List Char) : List Char :=
  let replaced := name.map replace_illegal
  let truncated := replaced.take 200
  if truncated = [] then "document".toList else truncated

/-- The sanitizer as the spec words it (for the refinement check of the
claim that illegal characters are *stripped/removed*): remove the
illegal characters, truncate to 200 characters, default to `"document"`
when empty after stripping. -/
def sanitize_filename_spec (name : List Char) : List Char :=
  let stripped := name.filter (fun c => ¬ c ∈ illegal_chars)
  let truncated := stripped.take 200
  if truncated = [] then "document".toList else truncated

/-- The extension step of `views.export_word`:
`if not filename.lower().endswith(".docx"): filename += ".docx"`. -/
def ensure_docx_extension (f : List Char) : List Char :=
  if ".docx".toList <:+ f.map Char.toLower then f
  else f ++ ".docx".toList

/-- The extension step of `views.export_pdf`:
`if not filename.lower().endswith(".pdf"): filename += ".pdf"`. -/
def ensure_pdf_extension (f : List Char) : List Char :=
  if ".pdf".toList <:+ f.map Char.toLower then f
  else f ++ ".pdf".toList

/-! ## HTML tree (the BeautifulSoup node structure the DOCX walk consumes) -/

/-- A parsed HTML node: either a text node (`NavigableString`, whose
`.name` is `None`, so it matches no tag branch of
`parse_html_element`) or a tag with its ordered children. -/
inductive HtmlNode where
  | text : String → HtmlNode
  | tag : String → List HtmlNode → HtmlNode

mutual

/-- BeautifulSoup `element.get_text()`: concatenation of all descendant
text nodes in document order. -/
def get_text : HtmlNode → String
  | .text s => s
  | .tag _ cs => get_text_list cs

/-- `get_text` over a list of children, in order. -/
def get_text_list : List HtmlNode → String
  | [] => ""
  | c :: cs => get_text c ++ get_text_list cs

end

/-! ## The python-docx document model

Every `add_heading` / `add_paragraph` call of `views.py` appends one
paragraph to the document, and `doc.paragraphs` (used for the
empty-document check) counts them all, headings included; a fresh
`Document()` has no paragraphs.  A paragraph is a style plus its
ordered runs. -/

/-- Style of a single run, as set by `add_inline_formatting` /
`parse_html_element`: plain, `.bold = True`, `.italic = True`,
Courier-New-10pt monospace, or the hyperlink branch (which sets
`font.color.rgb = None`, a no-op on the visible style). -/
inductive RunStyle where
  | plain
  | bold
  | italic
  | mono
  | hyperlink
deriving DecidableEq, Repr

/-- A run of text inside a paragraph. -/
structure DocRun where
  text : String
  style : RunStyle
deriving DecidableEq, Repr

/-- Paragraph style: normal, `add_heading` at a level, `List Bullet`,
`List Number`, or `Quote`. -/
inductive ParaStyle where
  | normal
  | heading (level : Nat)
  | listBullet
  | listNumber
  | quote
deriving DecidableEq, Repr

/-- One paragraph of the generated document. -/
structure DocPara where
  style : ParaStyle
  runs : List DocRun
deriving DecidableEq, Repr

/-! ## The DOCX element walk (`views.parse_html_element`,
`views.add_inline_formatting`) -/

/-- One step of `views.add_inline_formatting`: a string child becomes a
plain run; `strong`/`b` a bold run of the child's text; `em`/`i` an
italic run; `code` a Courier-New-10pt run; `a` the hyperlink branch;
any other tag a plain run of its text. -/
def inline_run (n : HtmlNode) : DocRun :=
  match n with
  | .text s => ⟨s, .plain⟩
  | .tag name cs =>
    if name = "strong" || name = "b" then ⟨get_text_list cs, .bold⟩
    else if name = "em" || name = "i" then ⟨get_text_list cs, .italic⟩
    else if name = "code" then ⟨get_text_list cs, .mono⟩
    else if name = "a" then ⟨get_text_list cs, .hyperlink⟩
    else ⟨get_text_list cs, .plain⟩

/-- `views.add_inline_formatting`: iterate the paragraph element's
direct contents, one run per child. -/
def add_inline_formatting (contents : List HtmlNode) : List DocRun :=
  contents.map inline_run

/-- Python `int(element.name[1])` as used for heading tags: the digit
character at index 1 of the tag name. -/
def heading_digit (name : String) : Nat :=
  match name.toList.get? 1 with
  | some c => c.toNat - '0'.toNat
  | none => 0

/-- The direct-`li`-children walk of the `ul`/`ol` branches
(`element.find_all("li", recursive=False)`), each emitted as one
list-styled paragraph of the item's plain text. -/
def li_paragraphs (style : ParaStyle) (cs : List HtmlNode) : List DocPara :=
  cs.filterMap (fun c =>
    match c with
    | .tag liName lcs =>
      if liName = "li" then some ⟨style, [⟨get_text_list lcs, .plain⟩]⟩ else none
    | _ => none)

/-- `views.parse_html_element`: dispatch one top-level element onto the
document.  A text node has no tag name and matches no branch; `h1`–`h6`
add a heading at level `min(int(name[1]), 9)`; `p` adds a paragraph of
inline runs; `ul`/`ol` add one list paragraph per direct `li` child;
`pre`/`code` add a monospace paragraph; `blockquote` adds a
Quote-styled paragraph of the flattened text; any other tag is
ignored. -/
def parse_html_element (doc : List DocPara) (e : HtmlNode) : List DocPara :=
  match e with
  | .text _ => doc
  | .tag name cs =>
    if name ∈ (["h1", "h2", "h3", "h4", "h5", "h6"] : List String) then
      doc ++ [⟨.heading (min (heading_digit name) 9), [⟨get_text_list cs, .plain⟩]⟩]
    else if name = "p" then
      doc ++ [⟨.normal, add_inline_formatting cs⟩]
    else if name = "ul" then
      doc ++ li_paragraphs .listBullet cs
    else if name = "ol" then
      doc ++ li_paragraphs .listNumber cs
    else if name = "pre" || name = "code" then
      doc ++ [⟨.normal, [⟨get_text_list cs, .mono⟩]⟩]
    else if name = "blockquote" then
      doc ++ [⟨.quote, [⟨get_text_list cs, .plain⟩]⟩]
    else doc

/-- The placeholder paragraph `doc.add_paragraph("No content available")`. -/
def no_content_para : DocPara := ⟨.normal, [⟨"No content available", .plain⟩]⟩

/-- The document-body part of `views.export_word`: walk the top-level
soup children in order, then, if no paragraph was produced
(`len(doc.paragraphs) == 0`), insert the placeholder paragraph. -/
def export_word_blocks (nodes : List HtmlNode) : List DocPara :=
  let doc := nodes.foldl parse_html_element []
  if doc.length = 0 then [no_content_para] else doc

/-- `views.export_word`: sanitise the filename, ensure the `.docx`
extension, and build the document body. -/
def export_word (nodes : List HtmlNode) (filename : List Char) :
    List Char × List DocPara :=
  (ensure_docx_extension (sanitize_filename filename), export_word_blocks nodes)

/-! ## The history store (`models.TextHistory` and the mutating views)

The markdown engine behind `utils.markdown_to_html` is a third-party
collaborator; the renderer is therefore a function parameter `render`
everywhere below.  `created_at` (`auto_now_add`) is a server-assigned
timestamp, embedded as a `Nat` supplied to the create step. -/

/-- One row of the `TextHistory` table. -/
structure HistoryEntry where
  id : Nat
  raw_text : List Char
  formatted_html : List Char
  created_at : Nat
deriving DecidableEq, Repr

/-- The persisted table plus the server's id counter. -/
structure Store where
  entries : List HistoryEntry
  nextId : Nat
deriving DecidableEq, Repr

/-- Outcome of the format branch of `views.dashboard`. -/
inductive FormatOutcome where
  | formatted (html : List Char)
  | emptyError
deriving DecidableEq, Repr

/-- The format branch of `views.dashboard`: the posted text is stripped
(`request.POST.get("raw_text", "").strip()`); an empty result yields
the "Please enter some text to format." error and no row; otherwise
`markdown_to_html` runs on the stripped text and
`TextHistory.objects.create(raw_text=raw_text, formatted_html=html_output)`
appends a row. -/
def dashboard_format (render : List Char → List Char) (s : Store)
    (input : List Char) (now : Nat) : Store × FormatOutcome :=
  let raw := pyStrip input
  if raw = [] then (s, .emptyError)
  else
    let html := render raw
    (⟨s.entries ++ [⟨s.nextId, raw, html, now⟩], s.nextId + 1⟩, .formatted html)

/-- JSON response of the delete endpoints: `{"status": "ok"}` or the
500 `{"status": "error", "message": str(e)}` branch. -/
inductive DeleteResponse where
  | ok
  | serverError (message : List Char)
deriving DecidableEq, Repr

/-- `views.delete_history`: `TextHistory.objects.filter(pk=pk).delete()`
removes the matching rows (zero or one) and the endpoint answers
`{"status": "ok"}`; only a raised persistence error (`db_error`,
the `except` branch) produces the distinct 500 response.  Whether `pk`
exists is never consulted. -/
def delete_history (db_error : Option (List Char)) (s : Store) (pk : Nat) :
    Store × DeleteResponse :=
  match db_error with
  | some msg => (s, .serverError msg)
  | none => (⟨s.entries.filter (fun e => e.id ≠ pk), s.nextId⟩, .ok)

/-- `views.delete_all_history`: delete every row, report the count. -/
def delete_all_history (db_error : Option (List Char)) (s : Store) :
    Store × DeleteResponse × Nat :=
  match db_error with
  | some msg => (s, .serverError msg, 0)
  | none => (⟨[], s.nextId⟩, .ok, s.entries.length)

/-- The state-mutating operations of the application: format (create),
delete one, delete all.  No operation updates a row in place. -/
inductive Op where
  | format (input : List Char) (now : Nat)
  | deleteOne (pk : Nat)
  | deleteAll

/-- Store transition of one operation (successful persistence). -/
def apply_op (render : List Char → List Char) (s : Store) : Op → Store
  | .format input now => (dashboard_format render s input now).1
  | .deleteOne pk => (delete_history none s pk).1
  | .deleteAll => (delete_all_history none s).1

/-- Store after a sequence of operations. -/
def run_ops (render : List Char → List Char) (s : Store) (ops : List Op) : Store :=
  ops.foldl (apply_op render) s

/-- The invariant of the `TextHistory` table: every row's
`formatted_html` is the renderer's output for its `raw_text`. -/
def Invariant (render : List Char → List Char) (s : Store) : Prop :=
  ∀ e ∈ s.entries, e.formatted_html = render e.raw_text

/-! ## Pagination (`views.history_page`)

`views.history_page` delegates to Django's
`Paginator(items, 10).get_page(page)`.  The embedding below follows
`django.core.paginator.Paginator` with `per_page=10`, `orphans=0`,
`allow_empty_first_page=True`: `num_pages = ceil(max(1, count)/10)`,
and `get_page` clamps an out-of-range page number (less than 1 or
greater than `num_pages`) to the last page. -/

/-- Django `Paginator.num_pages` for `per_page = 10`. -/
def num_pages (count : Nat) : Nat := max 1 ((count + 9) / 10)

/-- The page number actually delivered by `Paginator.get_page` for a
requested integer `n`: out-of-range numbers are clamped to the last
page. -/
def get_page_number (count : Nat) (n : Int) : Nat :=
  if n < 1 then num_pages count
  else if (num_pages count : Int) < n then num_pages count
  else n.toNat

/-- One item of the `history_page` JSON payload: the projection
`{"id": i.id, "raw_text": i.raw_text[:100], "created_at": i.created_at.strftime(...)}`. -/
structure HistoryItem where
  id : Nat
  raw_text : List Char
  created_at : List Char
deriving DecidableEq, Repr

/-- The `history_page` JSON response. -/
structure PageResponse where
  items : List HistoryItem
  has_next : Bool
  has_previous : Bool
deriving DecidableEq, Repr

/-- `views.history_page` on the ordered (newest-first) entry list:
deliver the clamped page of 10, project each row to
`(id, raw_text[:100], formatted created_at)`, and report the page
object's `has_next` / `has_previous`.  `fmt` is the timestamp
formatter `strftime("%Y-%m-%d %H:%M")`, kept abstract. -/
def history_page (fmt : Nat → List Char) (ordered : List HistoryEntry)
    (n : Int) : PageResponse where
  items :=
    ((ordered.drop ((get_page_number ordered.length n - 1) * 10)).take 10).map
      (fun e => ⟨e.id, e.raw_text.take 100, fmt e.created_at⟩)
  has_next := decide (get_page_number ordered.length n < num_pages ordered.length)
  has_previous := decide (1 < get_page_number ordered.length n)

/-! ## PDF export (`views.export_pdf`)

The rendering engine (`pisa.CreatePDF` on the fixed A4 template
wrapping the HTML) is a third-party collaborator; its report for this
call is passed in as the error count `pisa_err` (`pisa_status.err`,
truthy exactly when nonzero) and the bytes `pisa_output` it wrote. -/

/-- A successful PDF export response: attachment filename, content
type, and the streamed body. -/
structure PdfResponse where
  filename : List Char
  content_type : String
  body : List Nat
deriving DecidableEq, Repr

/-- `views.export_pdf` after the engine ran: sanitise the filename and
ensure `.pdf`; then `if pisa_status.err: raise Exception("PDF generation
failed")` — the failure is raised before any response is constructed —
otherwise build the `application/pdf` response from the buffer. -/
def export_pdf (pisa_err : Nat) (pisa_output : List Nat)
    (filename : List Char) : Except String PdfResponse :=
  let fn := ensure_pdf_extension (sanitize_filename filename)
  if pisa_err ≠ 0 then .error "PDF generation failed"
  else .ok ⟨fn, "application/pdf", pisa_output⟩

/-! ## Helper lemmas -/

/-- Every paragraph emitted by the direct-`li` walk carries the list
style it was invoked with. -/
theorem li_paragraphs_style (st : ParaStyle) (cs : List HtmlNode) :
    ∀ p ∈ li_paragraphs st cs, p.style = st := by
  intro p hp
  rw [li_paragraphs, List.mem_filterMap] at hp
  obtain ⟨c, _, hc⟩ := hp
  match c with
  | .text s => simp at hc
  | .tag liName lcs =>
    have hc' : (if liName = "li"
        then some (⟨st, [⟨get_text_list lcs, .plain⟩]⟩ : DocPara)
        else none) = some p := hc
    by_cases h : liName = "li"
    · rw [if_pos h, Option.some_inj] at hc'
      rw [← hc']
    · rw [if_neg h] at hc'
      exact Option.noConfusion hc'

/-- Folding `parse_html_element` over text-only nodes leaves the
document unchanged (a `NavigableString` matches no tag branch). -/
theorem text_nodes_foldl (nodes : List HtmlNode)
    (h : ∀ n ∈ nodes, ∃ s, n = HtmlNode.text s) (doc : List DocPara) :
    nodes.foldl parse_html_element doc = doc := by
  induction nodes generalizing doc with
  | nil => rfl
  | cons n ns ih =>
    obtain ⟨s, rfl⟩ := h n (List.mem_cons_self n ns)
    rw [List.foldl_cons]
    exact ih (fun m hm => h m (List.mem_cons_of_mem _ hm)) doc

/-- The name produced by `ensure_docx_extension` always ends in
`.docx`, compared case-insensitively. -/
theorem ensure_docx_extension_lower_suffix (f : List Char) :
    ∃ pre, (ensure_docx_extension f).map Char.toLower = pre ++ ".docx".toList := by
  rw [ensure_docx_extension]
  split
  · next h =>
    obtain ⟨pre, hpre⟩ := h
    exact ⟨pre, hpre.symm⟩
  · next h =>
    refine ⟨f.map Char.toLower, ?_⟩
    rw [List.map_append]
    congr 1

/-! ## Claim C1 -/

/-- Claim C1: the DOCX export of
`<h2>Title</h2><p>Hello <strong>world</strong></p>` produces exactly
one level-2 heading with text "Title" followed by one paragraph whose
runs are, in order, a plain run "Hello " and a bold run "world". -/
theorem c1_docx_heading_and_runs :
    export_word_blocks
      [.tag "h2" [.text "Title"],
       .tag "p" [.text "Hello ", .tag "strong" [.text "world"]]] =
    [⟨.heading 2, [⟨"Title", .plain⟩]⟩,
     ⟨.normal, [⟨"Hello ", .plain⟩, ⟨"world", .bold⟩]⟩] := by
  decide

/-! ## Claim C6 -/

/-- Claim C6: for every input string, `sanitize_filename` returns a
name containing none of the characters `< > : " / \ | ? *`, of length
at most 200, and never empty. -/
theorem c6_sanitizer_safe (name : List Char) :
    (∀ c ∈ sanitize_filename name, c ∉ illegal_chars) ∧
    (sanitize_filename name).length ≤ 200 ∧
    sanitize_filename name ≠ [] := by
  simp only [sanitize_filename]
  by_cases h : (name.map replace_illegal).take 200 = []
  · rw [if_pos h]
    exact ⟨by decide, by decide, by decide⟩
  · rw [if_neg h]
    refine ⟨?_, ?_, h⟩
    · intro c hc
      obtain ⟨a, _, rfl⟩ := List.mem_map.1 (List.mem_of_mem_take hc)
      rw [replace_illegal]
      split
      · decide
      · next ha => exact ha
    · rw [List.length_take]
      omega

/-- Witness for C6: applying the theorem at the concrete input `"<"`,
whose sanitised form is `"_"`. -/
theorem c6_witness : '_' ∉ illegal_chars :=
  (c6_sanitizer_safe ['<']).1 '_' (by decide)

/-! ## Claim C8 -/

/-- Claim C8: DOCX export of empty or whitespace-only HTML produces
exactly one paragraph with the placeholder text "No content
available".  BeautifulSoup parses such an input to a (possibly empty)
list of bare text nodes, so the claim is stated for every text-only
top-level node list. -/
theorem c8_empty_html_placeholder (nodes : List HtmlNode)
    (h : ∀ n ∈ nodes, ∃ s, n = HtmlNode.text s) :
    export_word_blocks nodes = [no_content_para] := by
  simp only [export_word_blocks]
  rw [text_nodes_foldl nodes h []]
  rfl

/-- Witness for C8 at the whitespace-only input `"   \n"`. -/
theorem c8_witness : export_word_blocks [.text "   \n"] = [no_content_para] :=
  c8_empty_html_placeholder [.text "   \n"]
    (by intro n hn; rw [List.mem_singleton] at hn; exact ⟨"   \n", hn⟩)

/-! ## Claim C9 -/

/-- Claim C9: every heading element processed by the export requests
style level `min(int(name[1]), 9)`; a malformed-but-numeric tag such as
`<h9999>` is not a recognised heading tag and emits nothing at all; and
no emitted heading ever has a style level above 9. -/
theorem c9_heading_level_clamped :
    (∀ name cs doc, name ∈ (["h1", "h2", "h3", "h4", "h5", "h6"] : List String) →
      parse_html_element doc (.tag name cs) =
        doc ++ [⟨.heading (min (heading_digit name) 9), [⟨get_text_list cs, .plain⟩]⟩]) ∧
    (∀ cs doc, parse_html_element doc (.tag "h9999" cs) = doc) ∧
    (∀ e p lvl, p ∈ parse_html_element [] e → p.style = .heading lvl → lvl ≤ 9) := by
  refine ⟨?_, ?_, ?_⟩
  · intro name cs doc hname
    simp only [parse_html_element]
    rw [if_pos hname]
  · intro cs doc
    simp [parse_html_element]
  · intro e p lvl hp hstyle
    match e with
    | .text s => simp [parse_html_element] at hp
    | .tag name cs =>
      simp only [parse_html_element] at hp
      by_cases h1 : name ∈ (["h1", "h2", "h3", "h4", "h5", "h6"] : List String)
      · rw [if_pos h1, List.nil_append, List.mem_singleton] at hp
        rw [hp] at hstyle
        have : ParaStyle.heading (min (heading_digit name) 9) = .heading lvl := hstyle
        cases this
        exact Nat.min_le_right _ _
      · rw [if_neg h1] at hp
        by_cases h2 : name = "p"
        · rw [if_pos h2, List.nil_append, List.mem_singleton] at hp
          rw [hp] at hstyle
          exact ParaStyle.noConfusion hstyle
        · rw [if_neg h2] at hp
          by_cases h3 : name = "ul"
          · rw [if_pos h3, List.nil_append] at hp
            have := li_paragraphs_style .listBullet cs p hp
            rw [this] at hstyle
            exact ParaStyle.noConfusion hstyle
          · rw [if_neg h3] at hp
            by_cases h4 : name = "ol"
            · rw [if_pos h4, List.nil_append] at hp
              have := li_paragraphs_style .listNumber cs p hp
              rw [this] at hstyle
              exact ParaStyle.noConfusion hstyle
            · rw [if_neg h4] at hp
              by_cases h5 : name = "pre" || name = "code"
              · rw [if_pos h5, List.nil_append, List.mem_singleton] at hp
                rw [hp] at hstyle
                exact ParaStyle.noConfusion hstyle
              · rw [if_neg h5] at hp
                by_cases h6 : name = "blockquote"
                · rw [if_pos h6, List.nil_append, List.mem_singleton] at hp
                  rw [hp] at hstyle
                  exact ParaStyle.noConfusion hstyle
                · rw [if_neg h6] at hp
                  exact absurd hp (List.not_mem_nil p)

/-- Witness for C9 at the concrete heading `<h2>Title</h2>`. -/
theorem c9_witness :
    parse_html_element [] (.tag "h2" [.text "Title"]) =
      [] ++ [⟨.heading (min (heading_digit "h2") 9),
              [⟨get_text_list [.text "Title"], .plain⟩]⟩] :=
  c9_heading_level_clamped.1 "h2" [.text "Title"] [] (by decide)

/-! ## Claim C10 -/

/-- Claim C10: when the PDF rendering engine reports an error status
(`pisa_status.err` nonzero), `export_pdf` raises the export failure
and no response — partial or otherwise — is ever produced. -/
theorem c10_pdf_engine_failure (pisa_err : Nat) (pisa_output : List Nat)
    (filename : List Char) (h : pisa_err ≠ 0) :
    export_pdf pisa_err pisa_output filename = .error "PDF generation failed" ∧
    ∀ r, export_pdf pisa_err pisa_output filename ≠ .ok r := by
  have hres : export_pdf pisa_err pisa_output filename =
      .error "PDF generation failed" := by
    simp only [export_pdf]
    rw [if_pos h]
  refine ⟨hres, ?_⟩
  intro r hr
  rw [hres] at hr
  exact Except.noConfusion hr

/-- Witness for C10 at a concrete failing engine status. -/
theorem c10_witness :
    export_pdf 1 [] "report".toList = .error "PDF generation failed" ∧
    ∀ r, export_pdf 1 [] "report".toList ≠ .ok r :=
  c10_pdf_engine_failure 1 [] "report".toList (by decide)

/-! ## Claim C5 -/

/-- Counterexample for C5: the claim says the illegal characters are
*removed* and the result defaults to "document" whenever empty after
stripping; the code substitutes `'_'` instead, so for the input `"<"`
the sanitizer returns `"_"` where the claimed behaviour
(`sanitize_filename_spec`) returns `"document"`. -/
theorem c5_counterexample :
    sanitize_filename ['<'] = ['_'] ∧
    sanitize_filename_spec ['<'] = "document".toList ∧
    decide (sanitize_filename ['<'] = sanitize_filename_spec ['<']) = false := by
  decide

/-- Claim C5 (amended): the sanitizer *replaces* each of
`< > : " / \ | ? *` by an underscore and truncates to 200 characters;
because replacement never empties a non-empty name, the "document"
default is returned exactly for the empty input; the Word exporter
then appends ".docx" unless the name already ends with it
case-insensitively, so the final name always ends in ".docx"
(case-insensitively). -/
theorem c5_amended_replacement (name : List Char) :
    (name = [] → sanitize_filename name = "document".toList) ∧
    (name ≠ [] → sanitize_filename name = (name.take 200).map replace_illegal) ∧
    (∃ pre, (ensure_docx_extension (sanitize_filename name)).map Char.toLower =
      pre ++ ".docx".toList) := by
  refine ⟨?_, ?_, ensure_docx_extension_lower_suffix _⟩
  · intro h
    subst h
    decide
  · intro h
    have hne : (name.map replace_illegal).take 200 ≠ [] := by
      rw [Ne, List.take_eq_nil_iff, List.map_eq_nil_iff]
      rintro (h10 | hnil)
      · exact absurd h10 (by decide)
      · exact h hnil
    simp only [sanitize_filename]
    rw [if_neg hne, List.map_take]

/-- Witness for C5 (amended) at the concrete input `"a<b"`. -/
theorem c5_witness :
    sanitize_filename "a<b".toList = ("a<b".toList.take 200).map replace_illegal :=
  (c5_amended_replacement "a<b".toList).2.1 (by decide)

/-! ## Claim C7 -/

/-- Counterexample for C7: deleting an id that is absent from the
table produces exactly the same `{"status": "ok"}` response as
deleting an existing entry — a not-found id is *not* reported as a
condition distinct from success. -/
theorem c7_counterexample :
    decide (∃ e ∈ (⟨[], 0⟩ : Store).entries, e.id = 5) = false ∧
    (delete_history none ⟨[], 0⟩ 5).2 = .ok ∧
    (delete_history none ⟨[⟨5, ['x'], ['y'], 0⟩], 6⟩ 5).2 = .ok := by
  decide

/-- Claim C7 (amended): `delete_history` always answers
`{"status": "ok"}` on successful persistence, regardless of whether
the id exists (not-found is indistinguishable from success); only a
persistence failure yields the distinct 500 error response, which
leaves the store unchanged; both paths return a response rather than
crashing. -/
theorem c7_amended_delete_responses (s s' : Store) (pk pk' : Nat)
    (msg : List Char) :
    (delete_history none s pk).2 = .ok ∧
    (delete_history none s pk).2 = (delete_history none s' pk').2 ∧
    (delete_history (some msg) s pk).2 = .serverError msg ∧
    (delete_history none s pk).2 ≠ (delete_history (some msg) s pk).2 ∧
    (delete_history (some msg) s pk).1 = s ∧
    (delete_history none s pk).1.entries = s.entries.filter (fun e => e.id ≠ pk) :=
  ⟨rfl, rfl, rfl, fun h => DeleteResponse.noConfusion h, rfl, rfl⟩

/-- Witness for C7 (amended) at a concrete store and id. -/
theorem c7_witness :
    (delete_history none ⟨[], 0⟩ 5).2 = .ok ∧
    (delete_history none ⟨[], 0⟩ 5).2 ≠
      (delete_history (some "boom".toList) ⟨[], 0⟩ 5).2 :=
  ⟨(c7_amended_delete_responses ⟨[], 0⟩ ⟨[], 0⟩ 5 5 "boom".toList).1,
   (c7_amended_delete_responses ⟨[], 0⟩ ⟨[], 0⟩ 5 5 "boom".toList).2.2.2.1⟩

/-! ## Claim C3 -/

/-- Every input splits as leading whitespace, its stripped core, and
trailing whitespace. -/
theorem pyStrip_decomposition (s : List Char) :
    ∃ pre post, s = pre ++ pyStrip s ++ post ∧
      (∀ c ∈ pre, isPySpace c) ∧ (∀ c ∈ post, isPySpace c) := by
  refine ⟨s.takeWhile isPySpace,
    ((s.dropWhile isPySpace).reverse.takeWhile isPySpace).reverse, ?_, ?_, ?_⟩
  · conv_lhs => rw [← List.takeWhile_append_dropWhile isPySpace s]
    rw [List.append_assoc]
    congr 1
    rw [pyStrip]
    conv_lhs =>
      rw [← List.reverse_reverse (s.dropWhile isPySpace),
        ← List.takeWhile_append_dropWhile isPySpace (s.dropWhile isPySpace).reverse,
        List.reverse_append]
  · intro c hc
    exact List.mem_takeWhile_imp hc
  · intro c hc
    exact List.mem_takeWhile_imp (List.mem_reverse.1 hc)

/-- Counterexample for C3: the non-empty input `" hi "` is stored as
`"hi"` — the leading and trailing whitespace the user submitted is not
preserved, so `raw_text` is not the original input verbatim. -/
theorem c3_counterexample :
    decide (" hi ".toList = ([] : List Char)) = false ∧
    (dashboard_format (fun x => x) ⟨[], 0⟩ " hi ".toList 0).1.entries =
      [⟨0, "hi".toList, "hi".toList, 0⟩] ∧
    decide ("hi".toList = " hi ".toList) = false := by
  decide

/-- Claim C3 (amended): for every format request whose input is
non-empty after trimming, the created entry stores the input with
leading and trailing whitespace removed and is otherwise unchanged —
the stored `raw_text` is the stripped core of the submitted text. -/
theorem c3_amended_stored_trimmed (render : List Char → List Char)
    (s : Store) (input : List Char) (now : Nat) (h : pyStrip input ≠ []) :
    (dashboard_format render s input now).1.entries =
      s.entries ++ [⟨s.nextId, pyStrip input, render (pyStrip input), now⟩] ∧
    ∃ pre post, input = pre ++ pyStrip input ++ post ∧
      (∀ c ∈ pre, isPySpace c) ∧ (∀ c ∈ post, isPySpace c) := by
  constructor
  · simp only [dashboard_format]
    rw [if_neg h]
  · exact pyStrip_decomposition input

/-- Witness for C3 (amended) at the concrete input `" hi "`. -/
theorem c3_witness :
    (dashboard_format (fun x => x) ⟨[], 0⟩ " hi ".toList 0).1.entries =
      (⟨[], 0⟩ : Store).entries ++
        [⟨(⟨[], 0⟩ : Store).nextId, pyStrip " hi ".toList,
          (fun x => x) (pyStrip " hi ".toList), 0⟩] :=
  (c3_amended_stored_trimmed (fun x => x) ⟨[], 0⟩ " hi ".toList 0 (by decide)).1

/-! ## Claim C4 -/

/-- One operation preserves the render invariant: the format action
only appends an entry whose `formatted_html` is the renderer's output
for its stored `raw_text`, and deletions only remove entries. -/
theorem apply_op_invariant (render : List Char → List Char) (s : Store)
    (op : Op) (h : Invariant render s) :
    Invariant render (apply_op render s op) := by
  match op with
  | .format input now =>
    simp only [apply_op, dashboard_format]
    split
    · exact h
    · intro e he
      rcases List.mem_append.1 he with h1 | h1
      · exact h e h1
      · rw [List.mem_singleton] at h1
        rw [h1]
  | .deleteOne pk =>
    intro e he
    exact h e (List.mem_of_mem_filter he)
  | .deleteAll =>
    intro e he
    exact absurd he (List.not_mem_nil e)

/-- Claim C4: from any store satisfying the invariant that each
entry's `formatted_html` is the renderer's output for its `raw_text`,
every sequence of operations (format/create, delete-one, delete-all)
preserves the invariant — no operation updates an entry in place. -/
theorem c4_invariant_preserved (render : List Char → List Char) (s : Store)
    (ops : List Op) (h : Invariant render s) :
    Invariant render (run_ops render s ops) := by
  induction ops generalizing s with
  | nil => exact h
  | cons op ops ih => exact ih (apply_op render s op) (apply_op_invariant render s op h)

/-- Witness for C4: the invariant after a concrete operation sequence
from the empty store. -/
theorem c4_witness :
    Invariant (fun x => x)
      (run_ops (fun x => x) ⟨[], 0⟩
        [.format " hi ".toList 0, .format "a".toList 1, .deleteOne 0]) :=
  c4_invariant_preserved (fun x => x) ⟨[], 0⟩ _
    (fun e he => absurd he (List.not_mem_nil e))

/-! ## Claim C2 -/

/-- The first index of the last page lies strictly inside a non-empty
list: the last page is never empty. -/
theorem last_page_start_lt (count : Nat) (h : 1 ≤ count) :
    (num_pages count - 1) * 10 < count := by
  rw [num_pages]
  have h10 : (count + 9) / 10 * 10 ≤ count + 9 := Nat.div_mul_le_self _ _
  have h1 : 1 ≤ (count + 9) / 10 := (Nat.one_le_div_iff (by omega)).2 (by omega)
  omega

/-- A concrete history row used in the C2 theorems. -/
def c2_entry : HistoryEntry := ⟨1, "a".toList, "<p>a</p>".toList, 0⟩

/-- Counterexample for C2: with a single-entry history (one page),
requesting page 2 — strictly beyond the last page — returns a
*non-empty* item list (Django's `get_page` clamps an out-of-range page
to the last page), not the empty list the claim states; moreover
`has_previous` is `false` there although the requested page is not
page 1, refuting the claimed "has_previous false iff N = 1". -/
theorem c2_counterexample :
    (num_pages [c2_entry].length : Int) < 2 ∧
    decide ((history_page (fun _ => []) [c2_entry] 2).items = []) = false ∧
    (history_page (fun _ => []) [c2_entry] 2).has_previous = false := by
  decide

/-- Claim C2 (amended): requesting a page strictly beyond the last
page delivers the *last* page (the page number is clamped), so
`has_next` is `false` and the item list is empty iff the history is
empty; `has_previous` is `false` iff the delivered page is page 1,
that is iff there is a single page or the request was for page 1; each
item exposes only the entry's id, its `raw_text` truncated to at most
100 characters and a formatted timestamp, with at most 10 items per
page. -/
theorem c2_amended_pagination (fmt : Nat → List Char)
    (ordered : List HistoryEntry) (n : Int) :
    ((num_pages ordered.length : Int) < n →
      (history_page fmt ordered n).has_next = false ∧
      ((history_page fmt ordered n).items = [] ↔ ordered = [])) ∧
    ((history_page fmt ordered n).has_previous = false ↔
      (num_pages ordered.length = 1 ∨ n = 1)) ∧
    (history_page fmt ordered n).items.length ≤ 10 ∧
    (∀ it ∈ (history_page fmt ordered n).items, ∃ e ∈ ordered,
      it = ⟨e.id, e.raw_text.take 100, fmt e.created_at⟩ ∧
      it.raw_text.length ≤ 100) := by
  have hnp : 1 ≤ num_pages ordered.length := le_max_left 1 _
  refine ⟨?_, ?_, ?_, ?_⟩
  · intro hn
    have hp : get_page_number ordered.length n = num_pages ordered.length := by
      rw [get_page_number, if_neg (by omega), if_pos hn]
    constructor
    · show decide (get_page_number ordered.length n < num_pages ordered.length) = false
      rw [hp, decide_eq_false_iff_not]
      omega
    · show ((ordered.drop ((get_page_number ordered.length n - 1) * 10)).take 10).map
          _ = [] ↔ ordered = []
      rw [hp]
      constructor
      · intro hitems
        by_contra hne
        have hlen : 1 ≤ ordered.length := by
          cases ordered with
          | nil => exact absurd rfl hne
          | cons a t => simp
        have hlt := last_page_start_lt ordered.length hlen
        rw [List.map_eq_nil_iff, List.take_eq_nil_iff, List.drop_eq_nil_iff] at hitems
        omega
      · intro hord
        subst hord
        rfl
  · show decide (1 < get_page_number ordered.length n) = false ↔ _
    rw [decide_eq_false_iff_not, get_page_number]
    split
    · omega
    · split
      · omega
      · omega
  · show (((ordered.drop _).take 10).map _).length ≤ 10
    rw [List.length_map, List.length_take]
    omega
  · intro it hit
    obtain ⟨e, he, hproj⟩ := List.mem_map.1 hit
    refine ⟨e, List.mem_of_mem_drop (List.mem_of_mem_take he), hproj.symm, ?_⟩
    rw [← hproj]
    show (e.raw_text.take 100).length ≤ 100
    rw [List.length_take]
    omega

/-- Witness for C2 (amended): the beyond-the-last-page clause at the
concrete single-entry history and requested page 2. -/
theorem c2_witness :
    (history_page (fun _ => []) [c2_entry] 2).has_next = false ∧
    ((history_page (fun _ => []) [c2_entry] 2).items = [] ↔
      ([c2_entry] : List HistoryEntry) = []) :=
  (c2_amended_pagination (fun _ => []) [c2_entry] 2).1 (by decide)

end AiTextFormatter
